import Mathlib

set_option maxRecDepth 4096

namespace SSHMcp

/-! Shallow embedding of the ssh-mcp-server core: the command parser
(`src/command-parser.ts`), the allowlist check (`src/config.ts`), the
executor event logic, the connection pool and the port-forward registry
(`src/ssh-manager.ts`, current revision). -/

/-- Backtick character (code 96). -/
def btickC : Char := Char.ofNat 96

/-- Single-quote character (code 39). -/
def squoteC : Char := Char.ofNat 39

/-- Double-quote character (code 34). -/
def dquoteC : Char := Char.ofNat 34

/-- Backslash character (code 92). -/
def bslashC : Char := Char.ofNat 92

/-- Opening curly brace character (code 123). -/
def obraceC : Char := Char.ofNat 123

/-- Closing curly brace character (code 125). -/
def cbraceC : Char := Char.ofNat 125

/-- Prefix test on strings, as `String.startsWith` computes it, written on
the character lists so that it evaluates by kernel reduction. -/
def strStartsWith (s pre : String) : Bool :=
  go pre.data s.data
where
  go : List Char → List Char → Bool
    | [], _ => true
    | _ :: _, [] => false
    | a :: as, b :: bs => a = b && go as bs

/-- Tokens produced by the shell tokenizer: plain word tokens, operator
tokens (for `|`, `&&`, `||`, `;`, ...) and comment tokens. -/
inductive Tok where
  | word (s : String)
  | op (s : String)
  | comment (s : String)
deriving DecidableEq, Repr

/-- Shell control-operator characters. -/
def isOpChar (c : Char) : Bool :=
  c = '|' || c = '&' || c = ';' || c = '(' || c = ')' || c = '<' || c = '>'

/-- Characters that may appear in a `$NAME` variable name. -/
def isNameChar (c : Char) : Bool :=
  c.isAlphanum || c = '_'

/-- Modelled from the spec: reading a `$` variable reference, as the external
shell-quote tokenizer does with an empty environment. Given the characters
after the `$`, returns the literal text the reference contributes (variables
expand to the empty string) and the remaining characters; a malformed
`$\x7b` substitution (empty or unterminated braces) is the tokenizer's
only failure, "Bad substitution". -/
def dollarRead (cs : List Char) : Except String (List Char × List Char) :=
  match cs with
  | c :: r =>
    if c = obraceC then
      if r.head? = some cbraceC then .error "Bad substitution"
      else if r.contains cbraceC then .ok ([], (r.dropWhile (fun d => d ≠ cbraceC)).drop 1)
      else .error "Bad substitution"
    else if isNameChar c then .ok ([], r.dropWhile isNameChar)
    else .ok (['$'], c :: r)
  | [] => .ok (['$'], [])

/-- Modelled from the spec: scanning the inside of a double-quoted section of
a word. The accumulator is kept reversed; returns the updated accumulator and
the characters after the closing quote. A `$` inside double quotes is read by
`dollarRead` and can fail. -/
def dquoteGo : Nat → List Char → List Char → Except String (List Char × List Char)
  | 0, cs, acc => .ok (acc, cs)
  | _, [], acc => .ok (acc, [])
  | f + 1, c :: rest, acc =>
    if c = dquoteC then .ok (acc, rest)
    else if c = bslashC then
      match rest with
      | d :: rest2 => dquoteGo f rest2 (d :: acc)
      | [] => .ok (acc, [])
    else if c = '$' then
      match dollarRead rest with
      | .error e => .error e
      | .ok (txt, rest2) => dquoteGo f rest2 (txt.reverse ++ acc)
    else dquoteGo f rest (c :: acc)

/-- Modelled from the spec: reading one word token with POSIX lexical rules
(single and double quotes, backslash escapes, `$` expansion with an empty
environment). Stops at whitespace or a control-operator character. -/
def wordGo : Nat → List Char → List Char → Except String (String × List Char)
  | 0, cs, acc => .ok (String.mk acc.reverse, cs)
  | _, [], acc => .ok (String.mk acc.reverse, [])
  | f + 1, c :: rest, acc =>
    if c.isWhitespace || isOpChar c then .ok (String.mk acc.reverse, c :: rest)
    else if c = squoteC then
      match rest.dropWhile (fun d => d ≠ squoteC) with
      | _ :: rest2 => wordGo f rest2 ((rest.takeWhile (fun d => d ≠ squoteC)).reverse ++ acc)
      | [] => wordGo f rest acc
    else if c = dquoteC then
      match dquoteGo f rest acc with
      | .error e => .error e
      | .ok (acc2, rest2) => wordGo f rest2 acc2
    else if c = bslashC then
      match rest with
      | d :: rest2 => wordGo f rest2 (d :: acc)
      | [] => .ok (String.mk acc.reverse, [])
    else if c = '$' then
      match dollarRead rest with
      | .error e => .error e
      | .ok (txt, rest2) => wordGo f rest2 (txt.reverse ++ acc)
    else wordGo f rest (c :: acc)

/-- Two-character shell operators; given an operator character and the
following characters, returns the operator string and the rest when a
two-character operator applies. -/
def twoOp (c : Char) (rest : List Char) : Option (String × List Char) :=
  match rest with
  | d :: rest2 =>
    if (c = '|' && d = '|') || (c = '&' && d = '&') || (c = ';' && d = ';') ||
       (c = '|' && d = '&') || (c = '>' && d = '>') || (c = '>' && d = '&') ||
       (c = '<' && d = '&') || (c = '<' && d = '(') then
      some (String.mk [c, d], rest2)
    else none
  | [] => none

/-- Modelled from the spec: the tokenizer loop. Skips whitespace, emits
operator tokens (longest match first), turns a `#` at a token start into a
comment token running to the end, and otherwise reads a word. -/
def parseGo : Nat → List Char → Except String (List Tok)
  | 0, _ => .ok []
  | _, [] => .ok []
  | f + 1, c :: rest =>
    if c.isWhitespace then parseGo f rest
    else if isOpChar c then
      match twoOp c rest with
      | some (o, rest2) => (parseGo f rest2).map (fun ts => Tok.op o :: ts)
      | none => (parseGo f rest).map (fun ts => Tok.op c.toString :: ts)
    else if c = '#' then .ok [Tok.comment (String.mk rest)]
    else
      match wordGo f (c :: rest) [] with
      | .error e => .error e
      | .ok (w, rest2) => (parseGo f rest2).map (fun ts => Tok.word w :: ts)

/-- Modelled from the spec: step 3 of the CommandAuthorizer algorithm
tokenizes the string with POSIX shell lexical rules into words annotated
with operator tokens — the external shell-quote `parse`, which is not part
of this repository. Its only failure is the "Bad substitution" error on a
malformed `$\x7b` variable reference. -/
def parse (s : String) : Except String (List Tok) :=
  parseGo (2 * s.length + 8) s.data

/-- Balanced-parenthesis scan used by `extractDollarSubs`
(command-parser.ts lines 38-45): consumes characters after a `$(` keeping a
depth counter, and returns the substitution content (without the closing
parenthesis) and the remaining characters, or `none` when the parentheses
never balance. -/
def scanBalanced (d : Nat) : List Char → Option (List Char × List Char)
  | [] => none
  | c :: rest =>
    if c = '(' then (scanBalanced (d + 1) rest).map (fun p => (c :: p.1, p.2))
    else if c = ')' then
      if d = 1 then some ([], rest)
      else (scanBalanced (d - 1) rest).map (fun p => (c :: p.1, p.2))
    else (scanBalanced d rest).map (fun p => (c :: p.1, p.2))

/-- Placeholder written in place of the `idx`-th extracted `$(...)`
substitution (command-parser.ts line 48). -/
def placeholder (idx : Nat) : String :=
  "__SUB" ++ toString idx ++ "__"

/-- Scanner of `extractDollarSubs` (command-parser.ts lines 28-61): walks the
characters, extracts each balanced top-level `$(...)` into the substitution
list and replaces it with its numbered placeholder; an unbalanced `$(` ends
the scan with the remaining text kept as is. -/
def dollarSubsGo : Nat → Nat → List Char → List String × List Char
  | 0, _, cs => ([], cs)
  | f + 1, idx, '$' :: '(' :: rest =>
    (match scanBalanced 1 rest with
     | some (content, rest2) =>
       let r := dollarSubsGo f (idx + 1) rest2
       (String.mk content :: r.1, (placeholder idx).data ++ r.2)
     | none => ([], '$' :: '(' :: rest))
  | f + 1, idx, c :: rest =>
    let r := dollarSubsGo f idx rest
    (r.1, c :: r.2)
  | _, _, [] => ([], [])

/-- Extraction of `$(...)` command substitutions before tokenizing
(command-parser.ts lines 28-61): returns the list of substitution contents in
extraction order and the cleaned string in which each is replaced by its
placeholder. -/
def extractDollarSubs (s : String) : List String × String :=
  let r := dollarSubsGo (s.length + 1) 0 s.data
  (r.1, String.mk r.2)

/-- First whitespace-delimited token of a string, as
`str.trim().split(/\s+/)[0]` computes it (empty when the string is all
whitespace). -/
def firstWord (s : String) : String :=
  String.mk ((s.data.dropWhile Char.isWhitespace).takeWhile (fun c => ¬ c.isWhitespace))

/-- Command-name collection pass over the token stream
(command-parser.ts lines 83-135): an operator resets the expecting-command
flag, a comment is skipped, a `__SUB` placeholder sets the saw-substitution
flag, a non-empty non-flag word is collected when a command is expected or
right after a placeholder, and the word after a `--` separator is also
collected. -/
def collectGo : Bool → Bool → List Tok → List String
  | _, _, [] => []
  | _, _, Tok.op _ :: rest => collectGo true false rest
  | e, saw, Tok.comment _ :: rest => collectGo e saw rest
  | e, saw, Tok.word s :: rest =>
    if strStartsWith s "__SUB" then collectGo e true rest
    else
      let dashNext : List String :=
        if s = "--" then
          match rest with
          | Tok.word n :: _ =>
            if ¬ strStartsWith n "-" ∧ ¬ strStartsWith n "__SUB" then [n] else []
          | _ => []
        else []
      if e ∧ s ≠ "" ∧ ¬ strStartsWith s "-" then s :: (dashNext ++ collectGo false saw rest)
      else if saw ∧ s ≠ "" ∧ ¬ strStartsWith s "-" then s :: (dashNext ++ collectGo e false rest)
      else dashNext ++ collectGo e saw rest

/-- Collection entry point: commands are expected at the start of the stream
(command-parser.ts lines 83-135). -/
def collectFromTokens (toks : List Tok) : List String :=
  collectGo true false toks

/-- Commands of one backtick substitution (command-parser.ts lines 67-77):
tokenize and collect; on a tokenizer failure fall back to the first
whitespace-delimited word of the content when it is non-empty. -/
def backtickExtract (content : String) : List String :=
  match parse content with
  | .ok toks => collectFromTokens toks
  | .error _ =>
    if firstWord content ≠ "" then [firstWord content] else []

/-- Scanner of `handleBackticks` (command-parser.ts lines 63-80): each
backtick-delimited span with non-empty content contributes its extracted
commands and is stripped from the string; a backtick with no later closing
backtick (or with empty content) stays in place, as with the regex
`/[\x60]([^\x60]+)[\x60]/g`. -/
def backticksGo : Nat → List Char → List String × List Char
  | 0, cs => ([], cs)
  | _, [] => ([], [])
  | f + 1, c :: rest =>
    if c = btickC then
      match rest.head? with
      | some d =>
        if d = btickC then
          let r := backticksGo f rest
          (r.1, c :: r.2)
        else if rest.contains btickC then
          let content := rest.takeWhile (fun x => ¬ x = btickC)
          let after := (rest.dropWhile (fun x => ¬ x = btickC)).drop 1
          let r := backticksGo f after
          (backtickExtract (String.mk content) ++ r.1, r.2)
        else
          let r := backticksGo f rest
          (r.1, c :: r.2)
      | none => ([], [c])
    else
      let r := backticksGo f rest
      (r.1, c :: r.2)

/-- Backtick pre-processing (command-parser.ts lines 63-80, 137-138): returns
the nested commands collected from backtick substitutions and the string with
those substitutions stripped. -/
def handleBackticks (s : String) : List String × String :=
  let r := backticksGo (s.length + 1) s.data
  (r.1, String.mk r.2)

/-- Commands collected from the substitution list (command-parser.ts lines
144-156): each substitution is re-scanned for one further level of `$(...)`;
the deeper substitutions are tokenized and collected first, then the cleaned
substitution itself. These `parse` calls are NOT guarded by a try/catch, so
a tokenizer failure propagates. -/
def nestedFromSubs : List String → Except String (List String)
  | [] => .ok []
  | sub :: more => do
    let inner := extractDollarSubs sub
    let deep ← collectEach inner.1
    let toks ← parse inner.2
    let rest ← nestedFromSubs more
    .ok (deep ++ collectFromTokens toks ++ rest)
where
  /-- Tokenize-and-collect each string, propagating tokenizer failures. -/
  collectEach : List String → Except String (List String)
    | [] => .ok []
    | x :: xs => do
      let toks ← parse x
      let rest ← collectEach xs
      .ok (collectFromTokens toks ++ rest)

/-- Nested commands from backticks of the input string
(command-parser.ts line 138). -/
def btNestedOf (s : String) : List String :=
  (handleBackticks s).1

/-- The input string after backtick stripping (command-parser.ts line 138). -/
def afterBackticksOf (s : String) : String :=
  (handleBackticks s).2

/-- The `$(...)` substitution contents of the backtick-stripped string
(command-parser.ts line 141). -/
def subsOf (s : String) : List String :=
  (extractDollarSubs (afterBackticksOf s)).1

/-- The processed string handed to the outer tokenizer: backticks stripped
and every `$(...)` replaced by a placeholder
(command-parser.ts lines 138-142). -/
def processedOf (s : String) : String :=
  (extractDollarSubs (afterBackticksOf s)).2

/-- Fallback of the outer tokenizer's catch block (command-parser.ts lines
161-167): the first whitespace-delimited token of the processed string,
kept only when non-empty and not a substitution placeholder. -/
def fallbackOf (cleaned : String) : List String :=
  if firstWord cleaned ≠ "" ∧ ¬ strStartsWith (firstWord cleaned) "__SUB" then
    [firstWord cleaned]
  else []

/-- Outer commands of the processed string (command-parser.ts lines 158-167):
tokenize and collect, falling back to `fallbackOf` on a tokenizer failure. -/
def outerCommands (cleaned : String) : List String :=
  match parse cleaned with
  | .ok toks => collectFromTokens toks
  | .error _ => fallbackOf cleaned

/-- Deduplication with first-seen order, dropping empty strings
(command-parser.ts lines 170-176). -/
def dedupFirst (seen : List String) : List String → List String
  | [] => []
  | c :: rest =>
    if c ≠ "" ∧ c ∉ seen then c :: dedupFirst (c :: seen) rest
    else dedupFirst seen rest

/-- All nested commands of the input: backtick commands followed by `$(...)`
commands, in extraction order (command-parser.ts lines 23-24, 137-156). -/
def nestedAllOf (s : String) : Except String (List String) :=
  (nestedFromSubs (subsOf s)).map (fun n2 => btNestedOf s ++ n2)

/-- CommandParser.extractCommands (command-parser.ts lines 22-179): strips
backticks, extracts `$(...)` substitutions, collects nested then outer
commands and deduplicates preserving first-seen order. The unguarded `parse`
calls of the substitution pass make the result an `Except`: a tokenizer
failure there escapes the function. -/
def extractCommands (s : String) : Except String (List String) :=
  match nestedFromSubs (subsOf s) with
  | .error e => .error e
  | .ok n2 => .ok (dedupFirst [] ((btNestedOf s ++ n2) ++ outerCommands (processedOf s)))

/-- CommandParser.hasDangerousPatterns (command-parser.ts lines 186-205):
true when a backtick is present or the tokenizer yields an operator token;
a tokenizer failure also counts as dangerous. Total: the whole body is
guarded by a try/catch. -/
def hasDangerousPatterns (s : String) : Bool :=
  if s.data.contains btickC then true
  else
    match parse s with
    | .ok toks => toks.any (fun t => match t with | Tok.op _ => true | _ => false)
    | .error _ => true

/-- ConfigManager.isCommandAllowed (config.ts lines 119-125): with an empty
or missing allowlist every command is allowed; otherwise every extracted
command must be a member of the allowlist. A tokenizer failure escaping
`extractCommands` propagates. -/
def isCommandAllowed (allowedCommands : List String) (command : String) :
    Except String Bool :=
  if allowedCommands.isEmpty then .ok true
  else (extractCommands command).map (fun cmds => cmds.all (fun c => allowedCommands.contains c))

/-- Every element produced by `dedupFirst seen l` is outside `seen`. -/
theorem dedupFirst_not_seen (l : List String) :
    ∀ (seen : List String) (x : String), x ∈ dedupFirst seen l → x ∉ seen := by
  induction l with
  | nil => intro seen x hx; simp [dedupFirst] at hx
  | cons c rest ih =>
    intro seen x hx
    rw [dedupFirst] at hx
    by_cases hc : c ≠ "" ∧ c ∉ seen
    · rw [if_pos hc] at hx
      rcases List.mem_cons.mp hx with h | h
      · subst h; exact hc.2
      · intro hseen
        exact ih (c :: seen) x h (List.mem_cons_of_mem c hseen)
    · rw [if_neg hc] at hx
      exact ih seen x hx

/-- Deduplication output has no duplicates. -/
theorem dedupFirst_nodup (l : List String) : ∀ seen : List String, (dedupFirst seen l).Nodup := by
  induction l with
  | nil => intro seen; simp [dedupFirst]
  | cons c rest ih =>
    intro seen
    rw [dedupFirst]
    by_cases hc : c ≠ "" ∧ c ∉ seen
    · rw [if_pos hc]
      refine List.nodup_cons.mpr ⟨?_, ih (c :: seen)⟩
      intro hmem
      exact dedupFirst_not_seen rest (c :: seen) c hmem (List.mem_cons_self c seen)
    · rw [if_neg hc]
      exact ih seen

/-- C1: with a non-empty allowlist configured, `isCommandAllowed` succeeds
with `true` iff every base command extracted by `extractCommands` is a member
of the allowlist; with allowlist `["ls"]`, the command `"ls | rm -rf /"` is
not allowed and `"ls -la"` is allowed. -/
theorem c1_allowlist_sound :
    (∀ (allowed : List String) (cmd : String) (cmds : List String),
      allowed ≠ [] → extractCommands cmd = .ok cmds →
      (isCommandAllowed allowed cmd = .ok true ↔ ∀ c ∈ cmds, c ∈ allowed)) ∧
    isCommandAllowed ["ls"] "ls | rm -rf /" = .ok false ∧
    isCommandAllowed ["ls"] "ls -la" = .ok true := by
  refine ⟨?_, by rfl, by rfl⟩
  intro allowed cmd cmds hne hex
  have hempty : allowed.isEmpty = false := by
    cases allowed with
    | nil => exact absurd rfl hne
    | cons a l => rfl
  rw [isCommandAllowed, hempty]
  simp only [Bool.false_eq_true, if_false, hex, Except.map, Except.ok.injEq]
  simp [List.all_eq_true]

/-- C1 witness at allowlist `["ls"]` and command `"ls -la"`. -/
theorem c1_allowlist_sound_witness :
    isCommandAllowed ["ls"] "ls -la" = .ok true ↔ ∀ c ∈ ["ls"], c ∈ ["ls"] :=
  c1_allowlist_sound.1 ["ls"] "ls -la" ["ls"] (by simp) (by rfl)

/-- C5: whenever nested extraction succeeds, `extractCommands` returns the
nested commands (in extraction order) followed by the outer commands,
deduplicated; the result never holds duplicates; and the two concrete
examples of the spec hold. -/
theorem c5_extraction_order :
    (∀ (s : String) (ns : List String), nestedAllOf s = .ok ns →
      extractCommands s = .ok (dedupFirst [] (ns ++ outerCommands (processedOf s)))) ∧
    (∀ (s : String) (l : List String), extractCommands s = .ok l → l.Nodup) ∧
    extractCommands "echo $(whoami)" = .ok ["whoami", "echo"] ∧
    extractCommands "ls && ls && ls" = .ok ["ls"] := by
  refine ⟨?_, ?_, by rfl, by rfl⟩
  · intro s ns h
    rw [nestedAllOf] at h
    rw [extractCommands]
    cases he : nestedFromSubs (subsOf s) with
    | error e => rw [he] at h; exact absurd h (by simp [Except.map])
    | ok n2 =>
      rw [he] at h
      simp only [Except.map, Except.ok.injEq] at h
      rw [← h]
  · intro s l h
    rw [extractCommands] at h
    cases he : nestedFromSubs (subsOf s) with
    | error e => rw [he] at h; exact absurd h (by simp)
    | ok n2 =>
      rw [he] at h
      simp only [Except.ok.injEq] at h
      rw [← h]
      exact dedupFirst_nodup _ []

/-- C5 witness at the input `"echo $(whoami)"`. -/
theorem c5_extraction_order_witness :
    extractCommands "echo $(whoami)" =
      .ok (dedupFirst [] (["whoami"] ++ outerCommands (processedOf "echo $(whoami)"))) :=
  c5_extraction_order.1 "echo $(whoami)" ["whoami"] (by rfl)

/-- C6 counterexample: on the input `"$()$\x7bx"` the outer tokenizer fails
(the processed string is `"__SUB0__$\x7bx"`), yet `extractCommands` returns
the empty list — not a single element, and not the first token of the
pre-substitution input. -/
theorem c6_fallback_counterexample :
    parse (processedOf "$()$\x7bx") = .error "Bad substitution" ∧
    extractCommands "$()$\x7bx" = .ok [] := by
  exact ⟨by rfl, by rfl⟩

/-- C6 amended: when the outer tokenizer fails on the processed
(backtick-stripped, placeholder-substituted) string and nested extraction
succeeds, `extractCommands` returns the nested commands followed by the
fallback token of the PROCESSED string — the fallback token being its first
whitespace-delimited token, included only when non-empty and not a
substitution placeholder — deduplicated; the result can be empty. -/
theorem c6_fallback_amended :
    ∀ (s e : String) (ns : List String),
      parse (processedOf s) = .error e →
      nestedAllOf s = .ok ns →
      extractCommands s = .ok (dedupFirst [] (ns ++ fallbackOf (processedOf s))) := by
  intro s e ns hp hn
  rw [nestedAllOf] at hn
  rw [extractCommands]
  cases he : nestedFromSubs (subsOf s) with
  | error e2 => rw [he] at hn; exact absurd hn (by simp [Except.map])
  | ok n2 =>
    rw [he] at hn
    simp only [Except.map, Except.ok.injEq] at hn
    rw [← hn, outerCommands, hp]

/-- C6 witness at the input `"$()$\x7bx"`. -/
theorem c6_fallback_amended_witness :
    extractCommands "$()$\x7bx" =
      .ok (dedupFirst [] ([] ++ fallbackOf (processedOf "$()$\x7bx"))) :=
  c6_fallback_amended "$()$\x7bx" "Bad substitution" [] (by rfl) (by rfl)

/-- C7: the code violates the never-throws design. On the input
`"echo $($\x7bx)"` the substitution content `"$\x7bx"` fails to tokenize,
and because the substitution pass (command-parser.ts lines 144-156) calls
the tokenizer without a try/catch, `extractCommands` propagates the error
instead of returning a value; `hasDangerousPatterns`, whose whole body is
guarded, still returns a boolean on the same input. -/
theorem c7_nested_throw_bug :
    extractCommands "echo $($\x7bx)" = .error "Bad substitution" ∧
    hasDangerousPatterns "echo $($\x7bx)" = true := by
  exact ⟨by rfl, by rfl⟩

/-- C10: when `extractCommands` returns the empty list, `isCommandAllowed`
returns true even with a non-empty allowlist — the universally quantified
membership test is vacuous; the empty and whitespace-only strings extract
to the empty list. -/
theorem c10_empty_extraction_fails_open :
    (∀ (allowed : List String) (cmd : String), allowed ≠ [] →
      extractCommands cmd = .ok [] → isCommandAllowed allowed cmd = .ok true) ∧
    extractCommands "" = .ok [] ∧
    isCommandAllowed ["ls"] "" = .ok true ∧
    isCommandAllowed ["ls"] "   " = .ok true := by
  refine ⟨?_, by rfl, by rfl, by rfl⟩
  intro allowed cmd hne hex
  have hempty : allowed.isEmpty = false := by
    cases allowed with
    | nil => exact absurd rfl hne
    | cons a l => rfl
  rw [isCommandAllowed, hempty]
  simp [hex, Except.map]

/-- C10 witness at allowlist `["echo"]` and the whitespace-only command. -/
theorem c10_empty_extraction_fails_open_witness :
    isCommandAllowed ["echo"] "   " = .ok true :=
  c10_empty_extraction_fails_open.1 ["echo"] "   " (by simp) (by rfl)

/-! Executor event logic: `SSHConnectionManager.executeCommand`
(ssh-manager.test.ts embedded source, lines 1288-1357), with
`validateCommandTimeout` from utils.ts lines 48-55. The channel callback
installs a one-shot settle guard (`settled`, `resolveOnce`, `rejectOnce`,
`cleanup`) and, when a timeout was passed, a timer; the events the channel
can deliver are modelled as an explicit trace. -/

/-- Result shape of `executeCommand` (types.ts): `exitCode` is null when the
command was forcibly ended by timeout; the optional `timedOut` field is set
(to `true`) only on the timeout path. -/
structure CommandResult where
  stdout : String
  stderr : String
  exitCode : Option Int
  timedOut : Option Bool
deriving DecidableEq, Repr

/-- How the `executeCommand` promise settles. -/
inductive Settled where
  | resolved (r : CommandResult)
  | rejected (e : String)
deriving DecidableEq, Repr

/-- Events observable by the exec-channel listeners: stdout data, stderr
data, channel close with an exit code, a channel-level error, and the expiry
of the armed timeout timer. -/
inductive ChanEvent where
  | data (s : String)
  | errData (s : String)
  | close (code : Int)
  | chanErr (e : String)
  | timeout
deriving DecidableEq, Repr

/-- Events that neither settle nor close the channel. -/
def isPassive : ChanEvent → Bool
  | .data _ => true
  | .errData _ => true
  | _ => false

/-- validateCommandTimeout (utils.ts lines 48-55): undefined/null skip
validation, otherwise the value must be a positive (finite) number. -/
def validateCommandTimeout : Option Int → Bool
  | none => true
  | some v => decide (0 < v)

/-- State of the pending `executeCommand` promise: the two accumulators, the
timer flag (true while an armed timer is pending) and the settle guard. -/
structure ExecState where
  stdout : String
  stderr : String
  timerActive : Bool
  settled : Option Settled
deriving DecidableEq, Repr

/-- Initial listener state: empty accumulators, no settlement, timer armed
iff a timeout argument was passed
(`if (commandTimeout !== undefined) timeoutId = setTimeout(...)`). -/
def initExecState (commandTimeout : Option Int) : ExecState :=
  { stdout := "", stderr := "", timerActive := commandTimeout.isSome, settled := none }

/-- Effect of one channel event, mirroring the listeners of
ssh-manager.test.ts lines 1300-1354: data events append to the accumulators
(the listeners stay installed after settling), close resolves with the exit
code, an error rejects, and timeout expiry (possible only while the timer is
armed) force-closes the stream and resolves with a null exit code and
`timedOut = true`; every settling path runs `cleanup`, cancelling the
pending timer, and the `settled` guard makes later settle attempts no-ops. -/
def execStep (st : ExecState) : ChanEvent → ExecState
  | .data s => { st with stdout := st.stdout ++ s }
  | .errData s => { st with stderr := st.stderr ++ s }
  | .close code =>
    if st.settled.isSome then st
    else { st with settled := some (.resolved ⟨st.stdout, st.stderr, some code, none⟩),
                   timerActive := false }
  | .chanErr e =>
    if st.settled.isSome then st
    else { st with settled := some (.rejected e), timerActive := false }
  | .timeout =>
    if st.timerActive = false then st
    else if st.settled.isSome then st
    else { st with settled := some (.resolved ⟨st.stdout, st.stderr, none, some true⟩),
                   timerActive := false }

/-- Run of the promise over a trace of channel events. -/
def runExec (commandTimeout : Option Int) (events : List ChanEvent) : ExecState :=
  events.foldl execStep (initExecState commandTimeout)

/-- Concatenated stdout chunks of a trace. -/
def stdoutOf : List ChanEvent → String
  | [] => ""
  | .data s :: rest => s ++ stdoutOf rest
  | _ :: rest => stdoutOf rest

/-- Concatenated stderr chunks of a trace. -/
def stderrOf : List ChanEvent → String
  | [] => ""
  | .errData s :: rest => s ++ stderrOf rest
  | _ :: rest => stderrOf rest

/-- Settlement, once reached, survives any further event. -/
theorem execStep_keeps_settled (st : ExecState) (e : ChanEvent) (h : st.settled.isSome) :
    (execStep st e).settled = st.settled ∧ (execStep st e).timerActive = st.timerActive := by
  cases e with
  | data s => exact ⟨rfl, rfl⟩
  | errData s => exact ⟨rfl, rfl⟩
  | close code =>
    have hstep : execStep st (ChanEvent.close code) = st := by simp [execStep, h]
    rw [hstep]; exact ⟨rfl, rfl⟩
  | chanErr e2 =>
    have hstep : execStep st (ChanEvent.chanErr e2) = st := by simp [execStep, h]
    rw [hstep]; exact ⟨rfl, rfl⟩
  | timeout =>
    by_cases ht : st.timerActive = false
    · have hstep : execStep st ChanEvent.timeout = st := by simp [execStep, ht]
      rw [hstep]; exact ⟨rfl, rfl⟩
    · have hstep : execStep st ChanEvent.timeout = st := by simp [execStep, ht, h]
      rw [hstep]; exact ⟨rfl, rfl⟩

/-- Settlement survives a whole remaining trace. -/
theorem foldl_keeps_settled (events : List ChanEvent) :
    ∀ st : ExecState, st.settled.isSome →
      (events.foldl execStep st).settled = st.settled ∧
      (events.foldl execStep st).timerActive = st.timerActive := by
  induction events with
  | nil => intro st _; exact ⟨rfl, rfl⟩
  | cons e rest ih =>
    intro st h
    have h1 := execStep_keeps_settled st e h
    have h2 := ih (execStep st e) (by rw [h1.1]; exact h)
    rw [List.foldl_cons]
    exact ⟨h2.1.trans h1.1, h2.2.trans h1.2⟩

/-- A passive event only appends to the accumulators. -/
theorem foldl_passive (pre : List ChanEvent) :
    ∀ st : ExecState, (∀ e ∈ pre, isPassive e = true) →
      pre.foldl execStep st =
        { st with stdout := st.stdout ++ stdoutOf pre, stderr := st.stderr ++ stderrOf pre } := by
  induction pre with
  | nil => intro st _; simp [stdoutOf, stderrOf]
  | cons e rest ih =>
    intro st hall
    have he : isPassive e = true := hall e (List.mem_cons_self e rest)
    have hrest : ∀ x ∈ rest, isPassive x = true := fun x hx => hall x (List.mem_cons_of_mem e hx)
    cases e with
    | data s =>
      rw [List.foldl_cons]
      rw [ih _ hrest]
      simp [execStep, stdoutOf, stderrOf, String.append_assoc]
    | errData s =>
      rw [List.foldl_cons]
      rw [ih _ hrest]
      simp [execStep, stdoutOf, stderrOf, String.append_assoc]
    | close code => simp [isPassive] at he
    | chanErr e2 => simp [isPassive] at he
    | timeout => simp [isPassive] at he

/-- The timer, once off, stays off. -/
theorem execStep_timer_off (st : ExecState) (e : ChanEvent) (h : st.timerActive = false) :
    (execStep st e).timerActive = false := by
  cases e with
  | data s => exact h
  | errData s => exact h
  | close code => by_cases hs : st.settled.isSome <;> simp [execStep, hs, h]
  | chanErr e2 => by_cases hs : st.settled.isSome <;> simp [execStep, hs, h]
  | timeout => simp [execStep, h]

/-- With the timer off, timeout events are no-ops for the whole run. -/
theorem foldl_timer_off (events : List ChanEvent) :
    ∀ st : ExecState, st.timerActive = false →
      events.foldl execStep st =
        (events.filter (fun e => ¬ e = ChanEvent.timeout)).foldl execStep st := by
  induction events with
  | nil => intro st _; rfl
  | cons e rest ih =>
    intro st h
    cases e with
    | timeout =>
      have hstep : execStep st ChanEvent.timeout = st := by simp [execStep, h]
      rw [List.foldl_cons, hstep, List.filter_cons, if_neg (by simp)]
      exact ih st h
    | data s =>
      rw [List.foldl_cons, List.filter_cons, if_pos (by simp), List.foldl_cons]
      exact ih _ (execStep_timer_off st _ h)
    | errData s =>
      rw [List.foldl_cons, List.filter_cons, if_pos (by simp), List.foldl_cons]
      exact ih _ (execStep_timer_off st _ h)
    | close code =>
      rw [List.foldl_cons, List.filter_cons, if_pos (by simp), List.foldl_cons]
      exact ih _ (execStep_timer_off st _ h)
    | chanErr e2 =>
      rw [List.foldl_cons, List.filter_cons, if_pos (by simp), List.foldl_cons]
      exact ih _ (execStep_timer_off st _ h)

/-- Settling turns the timer off, and that is an invariant of every run. -/
theorem execStep_settled_timer_inv (st : ExecState) (e : ChanEvent)
    (h : st.settled.isSome → st.timerActive = false) :
    (execStep st e).settled.isSome → (execStep st e).timerActive = false := by
  cases e with
  | data s => exact h
  | errData s => exact h
  | close code =>
    by_cases hs : st.settled.isSome
    · have hstep : execStep st (ChanEvent.close code) = st := by simp [execStep, hs]
      rw [hstep]; exact h
    · have hstep : (execStep st (ChanEvent.close code)).timerActive = false := by
        simp [execStep, hs]
      intro _; exact hstep
  | chanErr e2 =>
    by_cases hs : st.settled.isSome
    · have hstep : execStep st (ChanEvent.chanErr e2) = st := by simp [execStep, hs]
      rw [hstep]; exact h
    · have hstep : (execStep st (ChanEvent.chanErr e2)).timerActive = false := by
        simp [execStep, hs]
      intro _; exact hstep
  | timeout =>
    by_cases ht : st.timerActive = false
    · have hstep : execStep st ChanEvent.timeout = st := by simp [execStep, ht]
      rw [hstep]; exact h
    · by_cases hs : st.settled.isSome
      · have hstep : execStep st ChanEvent.timeout = st := by simp [execStep, ht, hs]
        rw [hstep]; exact h
      · have hstep : (execStep st ChanEvent.timeout).timerActive = false := by
          simp [execStep, ht, hs]
        intro _; exact hstep

/-- C2: whenever the timeout fires before any close or error event, the call
settles as a successful resolution carrying `exitCode = null`,
`timedOut = true` and the stdout/stderr accumulated before expiry, and
whatever arrives later cannot change that; with no timeout argument the
timer is never armed, so timeout events are no-ops and a purely passive
trace leaves the call pending. -/
theorem c2_timeout_resolves :
    (∀ (t : Int) (pre post : List ChanEvent), (∀ e ∈ pre, isPassive e = true) →
      (runExec (some t) (pre ++ ChanEvent.timeout :: post)).settled =
        some (.resolved ⟨stdoutOf pre, stderrOf pre, none, some true⟩)) ∧
    (∀ events : List ChanEvent,
      runExec none events =
        (events.filter (fun e => ¬ e = ChanEvent.timeout)).foldl execStep (initExecState none)) ∧
    (∀ events : List ChanEvent, (∀ e ∈ events, isPassive e = true) →
      (runExec none events).settled = none) := by
  refine ⟨?_, ?_, ?_⟩
  · intro t pre post hpass
    rw [runExec, List.foldl_append]
    rw [foldl_passive pre _ hpass]
    rw [List.foldl_cons]
    have hstep :
        execStep { initExecState (some t) with
                    stdout := (initExecState (some t)).stdout ++ stdoutOf pre,
                    stderr := (initExecState (some t)).stderr ++ stderrOf pre }
          ChanEvent.timeout =
        { stdout := stdoutOf pre, stderr := stderrOf pre, timerActive := false,
          settled := some (.resolved ⟨stdoutOf pre, stderrOf pre, none, some true⟩) } := by
      simp [execStep, initExecState, String.empty_append]
    rw [hstep]
    exact (foldl_keeps_settled post _ (by simp)).1
  · intro events
    rw [runExec]
    exact foldl_timer_off events (initExecState none) rfl
  · intro events hpass
    rw [runExec, foldl_passive events _ hpass]
    rfl

/-- C2 witness: a trace delivering partial stdout and then the timeout. -/
theorem c2_timeout_resolves_witness :
    (runExec (some 50) [ChanEvent.data "partial", ChanEvent.timeout]).settled =
      some (.resolved ⟨"partial", "", none, some true⟩) := by
  have h := c2_timeout_resolves.1 50 [ChanEvent.data "partial"] [] (by simp [isPassive])
  simpa [stdoutOf, stderrOf] using h

/-- C8: the promise settles exactly once — the first settling event fixes
the outcome and later events leave it untouched — the pending timer is
cancelled on whichever path settles, and each of the three racing events
(close, channel error, armed-timeout expiry) settles a still-pending call. -/
theorem c8_settle_once :
    (∀ (st : ExecState) (events : List ChanEvent), st.settled.isSome →
      (events.foldl execStep st).settled = st.settled) ∧
    (∀ (cto : Option Int) (events : List ChanEvent),
      (runExec cto events).settled.isSome → (runExec cto events).timerActive = false) ∧
    (∀ (st : ExecState) (code : Int) (e : String), st.settled = none →
      (execStep st (ChanEvent.close code)).settled =
        some (.resolved ⟨st.stdout, st.stderr, some code, none⟩) ∧
      (execStep st (ChanEvent.chanErr e)).settled = some (.rejected e) ∧
      (st.timerActive = true →
        (execStep st ChanEvent.timeout).settled =
          some (.resolved ⟨st.stdout, st.stderr, none, some true⟩))) := by
  refine ⟨?_, ?_, ?_⟩
  · intro st events h
    exact (foldl_keeps_settled events st h).1
  · intro cto events
    rw [runExec]
    induction events using List.list_reverse_induction with
    | base => simp [initExecState]
    | ind rest e ih =>
      rw [List.foldl_append, List.foldl_cons, List.foldl_nil]
      exact execStep_settled_timer_inv _ e ih
  · intro st code e h
    have hs : st.settled.isSome = false := by rw [h]; rfl
    refine ⟨by simp [execStep, hs], by simp [execStep, hs], ?_⟩
    intro ht
    simp [execStep, hs, ht]

/-- C8 witness: each of the three settling events at a concrete pending
state. -/
theorem c8_settle_once_witness :
    (execStep ⟨"o", "e", true, none⟩ (ChanEvent.close 0)).settled =
      some (.resolved ⟨"o", "e", some 0, none⟩) :=
  (c8_settle_once.2.2 ⟨"o", "e", true, none⟩ 0 "boom" rfl).1

/-! Connection pool: `SSHConnectionManager.getConnection` (ssh-manager.test.ts
embedded source, lines 1240-1260). The pool maps the connection key to the
client, modelled as the socket-alive flag; a JS `Map` preserves insertion
order, so an association list is used. -/

/-- Outcome of one `getConnection` call: a cached client reused, a fresh
client created, the capacity error thrown before connecting, or a failed
connect attempt. -/
inductive AcqResult where
  | reused
  | created
  | capacityError
  | connectError
deriving DecidableEq, Repr

/-- JS `Map.delete` on an association list. -/
def eraseKey (conns : List (String × Bool)) (key : String) : List (String × Bool) :=
  conns.filter (fun p => ¬ p.1 = key)

/-- SSHConnectionManager.getConnection (lines 1240-1260): a cached client
with a live socket is returned as is; a stale entry is deleted; then the
capacity check `size >= maxConnections` throws BEFORE any connect attempt;
otherwise a connect is attempted (`connectOk` abstracts its success) and a
successful client is registered. Returns the outcome, the new registry, and
whether a connect was attempted. -/
def getConnection (conns : List (String × Bool)) (maxConnections : Nat) (key : String)
    (connectOk : Bool) : AcqResult × List (String × Bool) × Bool :=
  match conns.lookup key with
  | some true => (.reused, conns, false)
  | some false =>
    let c2 := eraseKey conns key
    if maxConnections ≤ c2.length then (.capacityError, c2, false)
    else if connectOk then (.created, c2 ++ [(key, true)], true)
    else (.connectError, c2, true)
  | none =>
    if maxConnections ≤ conns.length then (.capacityError, conns, false)
    else if connectOk then (.created, conns ++ [(key, true)], true)
    else (.connectError, conns, true)

/-- Operations that can change the pool: an acquire, an externally dying
socket, and `disconnectAll` (lines 1485-1495), which clears the registry. -/
inductive PoolOp where
  | acquire (key : String) (connectOk : Bool)
  | sockDied (key : String)
  | disconnectAll
deriving DecidableEq, Repr

/-- One pool transition. -/
def poolStep (maxConnections : Nat) (conns : List (String × Bool)) : PoolOp → List (String × Bool)
  | .acquire key ok => (getConnection conns maxConnections key ok).2.1
  | .sockDied key => conns.map (fun p => if p.1 = key then (p.1, false) else p)
  | .disconnectAll => []

/-- Pool states reachable from the initially empty registry. -/
def runPool (maxConnections : Nat) (ops : List PoolOp) : List (String × Bool) :=
  ops.foldl (poolStep maxConnections) []

/-- One pool transition keeps the session count within the bound. -/
theorem poolStep_le (maxConnections : Nat) (conns : List (String × Bool)) (op : PoolOp)
    (h : conns.length ≤ maxConnections) :
    (poolStep maxConnections conns op).length ≤ maxConnections := by
  cases op with
  | acquire key ok =>
    show (getConnection conns maxConnections key ok).2.1.length ≤ maxConnections
    cases hl : conns.lookup key with
    | none =>
      by_cases hcap : maxConnections ≤ conns.length
      · simpa [getConnection, hl, hcap] using h
      · push_neg at hcap
        cases ok <;> simp [getConnection, hl, hcap.not_le] <;> omega
    | some alive =>
      cases alive with
      | true => simpa [getConnection, hl] using h
      | false =>
        have herase : (eraseKey conns key).length ≤ conns.length :=
          List.length_filter_le _ _
        by_cases hcap : maxConnections ≤ (eraseKey conns key).length
        · simpa [getConnection, hl, hcap] using herase.trans h
        · push_neg at hcap
          cases ok <;> simp [getConnection, hl, hcap.not_le] <;> omega
  | sockDied key => simpa [poolStep] using h
  | disconnectAll => simp [poolStep]

/-- C4: every reachable pool state holds at most `maxConnections` sessions;
at capacity, acquiring a new distinct identity returns the capacity error
with no connect attempt and no eviction; re-acquiring an identity whose
cached session is live succeeds without raising and without change. -/
theorem c4_pool_capacity :
    (∀ (maxConnections : Nat) (ops : List PoolOp),
      (runPool maxConnections ops).length ≤ maxConnections) ∧
    (∀ (conns : List (String × Bool)) (maxConnections : Nat) (key : String) (ok : Bool),
      conns.length = maxConnections → conns.lookup key = none →
      getConnection conns maxConnections key ok = (.capacityError, conns, false)) ∧
    (∀ (conns : List (String × Bool)) (maxConnections : Nat) (key : String) (ok : Bool),
      conns.lookup key = some true →
      getConnection conns maxConnections key ok = (.reused, conns, false)) := by
  refine ⟨?_, ?_, ?_⟩
  · intro maxConnections ops
    rw [runPool]
    have hgen : ∀ (start : List (String × Bool)), start.length ≤ maxConnections →
        (ops.foldl (poolStep maxConnections) start).length ≤ maxConnections := by
      induction ops with
      | nil => intro start h; simpa using h
      | cons op rest ih =>
        intro start h
        rw [List.foldl_cons]
        exact ih _ (poolStep_le maxConnections start op h)
    exact hgen [] (by simp)
  · intro conns maxConnections key ok hlen hl
    simp [getConnection, hl, hlen.ge]
  · intro conns maxConnections key ok hl
    simp [getConnection, hl]

/-- C4 witness: a full one-slot pool rejects a second identity and keeps the
existing session. -/
theorem c4_pool_capacity_witness :
    getConnection [("alice@h1:22", true)] 1 "bob@h2:22" true =
      (.capacityError, [("alice@h1:22", true)], false) :=
  c4_pool_capacity.2.1 [("alice@h1:22", true)] 1 "bob@h2:22" true (by rfl) (by rfl)

/-! Tunnel registry: `SSHConnectionManager.setupPortForward`,
`closePortForward` and `listPortForwards` (ssh-manager.test.ts embedded
source, lines 1359-1483). -/

/-- Server identity (types.ts SSHConfig, connection fields): the port is
optional. -/
structure SSHConfig where
  host : String
  port : Option Nat
  username : String
deriving DecidableEq, Repr

/-- Text of the `port` slot inside the template-literal connection key; an
absent port prints as "undefined" in JS. -/
def portText : Option Nat → String
  | some p => toString p
  | none => "undefined"

/-- SSHConnectionManager.getConnectionKey (line 1236-1238):
`username@host:port`. -/
def getConnectionKey (c : SSHConfig) : String :=
  c.username ++ "@" ++ c.host ++ ":" ++ portText c.port

/-- Key of the forwarding registry. The source keys the Map by the template
literal `connKey:localPort->remoteHost:remotePort` (lines 1366, 1426); the
key is modelled by the four components that the literal prints. -/
structure ForwardKey where
  connKey : String
  localPort : Nat
  remoteHost : String
  remotePort : Nat
deriving DecidableEq, Repr

/-- Builds the registry key from a config and the forward parameters. -/
def forwardKey (config : SSHConfig) (localPort : Nat) (remoteHost : String)
    (remotePort : Nat) : ForwardKey :=
  ⟨getConnectionKey config, localPort, remoteHost, remotePort⟩

/-- Value stored in the forwarding registry: `ForwardingInfo` minus the live
server handle (lines 7-13). -/
structure ForwardingInfo where
  config : SSHConfig
  localPort : Nat
  remoteHost : String
  remotePort : Nat
deriving DecidableEq, Repr

/-- The forwarding registry, a JS Map in insertion order. -/
abbrev ForwardReg := List (ForwardKey × ForwardingInfo)

/-- JS `Map.set`: update in place when the key is present, append
otherwise. -/
def setEntry (reg : ForwardReg) (k : ForwardKey) (v : ForwardingInfo) : ForwardReg :=
  if (reg.lookup k).isSome then reg.map (fun p => if p.1 = k then (k, v) else p)
  else reg ++ [(k, v)]

/-- Result object of `setupPortForward`. -/
structure ForwardResult where
  localPort : Nat
  status : String
deriving DecidableEq, Repr

/-- SSHConnectionManager.setupPortForward, success path (lines 1359-1446):
a non-zero `localPort` whose key is already registered short-circuits to
`already_active` with no new listener; otherwise a listener is bound,
`osPort` abstracting the port the OS assigns (`server.address().port`), the
allocated port — `osPort` when `localPort = 0`, else `localPort` — is used
to build the key actually registered, and the call resolves with that
allocated port and status `active`. -/
def setupPortForward (reg : ForwardReg) (config : SSHConfig) (localPort : Nat)
    (remoteHost : String) (remotePort : Nat) (osPort : Nat) :
    ForwardResult × ForwardReg :=
  if localPort ≠ 0 ∧ (reg.lookup (forwardKey config localPort remoteHost remotePort)).isSome then
    (⟨localPort, "already_active"⟩, reg)
  else
    let allocatedPort := if localPort = 0 then osPort else localPort
    (⟨allocatedPort, "active"⟩,
     setEntry reg (forwardKey config allocatedPort remoteHost remotePort)
       ⟨config, allocatedPort, remoteHost, remotePort⟩)

/-- SSHConnectionManager.closePortForward (lines 1448-1465): when the key is
registered, the listener is closed and the entry deleted; an unknown key
resolves immediately with nothing changed. -/
def closePortForward (reg : ForwardReg) (config : SSHConfig) (localPort : Nat)
    (remoteHost : String) (remotePort : Nat) : ForwardReg :=
  let key := forwardKey config localPort remoteHost remotePort
  if (reg.lookup key).isSome then reg.filter (fun p => ¬ p.1 = key) else reg

/-- Enumeration entry of `listPortForwards` (types.ts PortForwardInfo). -/
structure PortForwardInfo where
  sshHost : String
  sshPort : Nat
  sshUsername : String
  localPort : Nat
  remoteHost : String
  remotePort : Nat
  status : String
deriving DecidableEq, Repr

/-- JS `info.config.port || 22`: both an absent port and port 0 fall back
to 22. -/
def jsPortOr22 : Option Nat → Nat
  | some p => if p = 0 then 22 else p
  | none => 22

/-- SSHConnectionManager.listPortForwards (lines 1467-1483). -/
def listPortForwards (reg : ForwardReg) : List PortForwardInfo :=
  reg.map (fun p =>
    ⟨p.2.config.host, jsPortOr22 p.2.config.port, p.2.config.username,
     p.2.localPort, p.2.remoteHost, p.2.remotePort, "active"⟩)

/-- Deleting a key from the registry makes its lookup fail. -/
theorem lookup_filter_ne (reg : ForwardReg) (k : ForwardKey) :
    (reg.filter (fun p => ¬ p.1 = k)).lookup k = none := by
  induction reg with
  | nil => rfl
  | cons a t ih =>
    by_cases ha : a.1 = k
    · simpa [List.filter_cons, ha] using ih
    · have hb : (k == a.1) = false := beq_eq_false_iff_ne.mpr (fun hh => ha hh.symm)
      simpa [List.filter_cons, ha, List.lookup, hb] using ih

/-- A deleted key is absent from the enumerated key list. -/
theorem not_mem_map_fst_filter (reg : ForwardReg) (k : ForwardKey) :
    k ∉ (reg.filter (fun p => ¬ p.1 = k)).map Prod.fst := by
  intro hmem
  rcases List.mem_map.mp hmem with ⟨p, hp, hk⟩
  rcases List.mem_filter.mp hp with ⟨_, hne⟩
  simp at hne
  exact hne hk

/-- Updating a present key in place makes its lookup return the new value. -/
theorem lookup_map_update (k : ForwardKey) (v : ForwardingInfo) :
    ∀ reg : ForwardReg, (reg.lookup k).isSome →
      (reg.map (fun p => if p.1 = k then (k, v) else p)).lookup k = some v := by
  intro reg
  induction reg with
  | nil => intro h; simp [List.lookup] at h
  | cons a t ih =>
    intro h
    obtain ⟨a1, a2⟩ := a
    by_cases ha : a1 = k
    · subst ha
      have hhead : (if (a1, a2).1 = a1 then (a1, v) else (a1, a2)) = (a1, v) := if_pos rfl
      rw [List.map_cons, hhead]
      simp [List.lookup]
    · have hb : (k == a1) = false := beq_eq_false_iff_ne.mpr (fun hh => ha hh.symm)
      have ht : (t.lookup k).isSome := by
        simpa [List.lookup, hb] using h
      have hhead : (if (a1, a2).1 = k then (k, v) else (a1, a2)) = (a1, a2) := if_neg ha
      rw [List.map_cons, hhead]
      simpa [List.lookup, hb] using ih ht

/-- After a `Map.set`, looking the key up returns the stored value. -/
theorem lookup_setEntry_self (reg : ForwardReg) (k : ForwardKey) (v : ForwardingInfo) :
    (setEntry reg k v).lookup k = some v := by
  rw [setEntry]
  by_cases h : (reg.lookup k).isSome
  · rw [if_pos h]
    exact lookup_map_update k v reg h
  · rw [if_neg h, List.lookup_append]
    have hnone : reg.lookup k = none := by
      cases hc : reg.lookup k with
      | none => rfl
      | some w => rw [hc] at h; simp at h
    rw [hnone]
    simp [List.lookup]

/-- A dynamic open (`localPort = 0`) skips the dedup check, resolves the
OS-assigned port and registers under it. -/
theorem setup_dynamic (reg : ForwardReg) (config : SSHConfig) (remoteHost : String)
    (remotePort osPort : Nat) :
    setupPortForward reg config 0 remoteHost remotePort osPort =
      (⟨osPort, "active"⟩,
       setEntry reg (forwardKey config osPort remoteHost remotePort)
         (⟨config, osPort, remoteHost, remotePort⟩ : ForwardingInfo)) := by
  simp [setupPortForward]

/-- Setting an absent key appends the entry. -/
theorem setEntry_absent (reg : ForwardReg) (k : ForwardKey) (v : ForwardingInfo)
    (h : reg.lookup k = none) : setEntry reg k v = reg ++ [(k, v)] := by
  simp [setEntry, h]

/-- C3: re-opening an already-active tunnel with identical non-zero
arguments returns `already_active` and changes nothing, while a dynamic
open (`localPort = 0`) never deduplicates — it always registers and returns
the OS-resolved port, and two dynamic opens with distinct resolved ports
yield two distinct registry entries, both enumerated with their resolved
ports. -/
theorem c3_tunnel_idempotence :
    (∀ (reg : ForwardReg) (config : SSHConfig) (localPort : Nat) (remoteHost : String)
        (remotePort osPort : Nat),
      localPort ≠ 0 →
      (reg.lookup (forwardKey config localPort remoteHost remotePort)).isSome →
      setupPortForward reg config localPort remoteHost remotePort osPort =
        (⟨localPort, "already_active"⟩, reg)) ∧
    (∀ (reg : ForwardReg) (config : SSHConfig) (remoteHost : String) (remotePort osPort : Nat),
      setupPortForward reg config 0 remoteHost remotePort osPort =
        (⟨osPort, "active"⟩,
         setEntry reg (forwardKey config osPort remoteHost remotePort)
           ⟨config, osPort, remoteHost, remotePort⟩)) ∧
    (∀ (reg : ForwardReg) (config : SSHConfig) (remoteHost : String) (remotePort p1 p2 : Nat),
      p1 ≠ p2 →
      reg.lookup (forwardKey config p1 remoteHost remotePort) = none →
      reg.lookup (forwardKey config p2 remoteHost remotePort) = none →
      (setupPortForward reg config 0 remoteHost remotePort p1).1 = ⟨p1, "active"⟩ ∧
      (setupPortForward (setupPortForward reg config 0 remoteHost remotePort p1).2
          config 0 remoteHost remotePort p2).1 = ⟨p2, "active"⟩ ∧
      (setupPortForward (setupPortForward reg config 0 remoteHost remotePort p1).2
          config 0 remoteHost remotePort p2).2 =
        reg ++ [(forwardKey config p1 remoteHost remotePort, ⟨config, p1, remoteHost, remotePort⟩),
                (forwardKey config p2 remoteHost remotePort, ⟨config, p2, remoteHost, remotePort⟩)] ∧
      (⟨config.host, jsPortOr22 config.port, config.username, p1, remoteHost, remotePort,
        "active"⟩ : PortForwardInfo) ∈ listPortForwards
          (reg ++ [(forwardKey config p1 remoteHost remotePort, ⟨config, p1, remoteHost, remotePort⟩),
                   (forwardKey config p2 remoteHost remotePort, ⟨config, p2, remoteHost, remotePort⟩)]) ∧
      (⟨config.host, jsPortOr22 config.port, config.username, p2, remoteHost, remotePort,
        "active"⟩ : PortForwardInfo) ∈ listPortForwards
          (reg ++ [(forwardKey config p1 remoteHost remotePort, ⟨config, p1, remoteHost, remotePort⟩),
                   (forwardKey config p2 remoteHost remotePort, ⟨config, p2, remoteHost, remotePort⟩)])) := by
  refine ⟨?_, ?_, ?_⟩
  · intro reg config localPort remoteHost remotePort osPort h0 hsome
    rw [setupPortForward, if_pos ⟨h0, hsome⟩]
  · intro reg config remoteHost remotePort osPort
    simp [setupPortForward]
  · intro reg config rh rp p1 p2 hne h1 h2
    have e1 : setupPortForward reg config 0 rh rp p1 =
        (⟨p1, "active"⟩,
         reg ++ [(forwardKey config p1 rh rp, (⟨config, p1, rh, rp⟩ : ForwardingInfo))]) := by
      rw [setup_dynamic, setEntry_absent _ _ _ h1]
    have hk12 : forwardKey config p1 rh rp ≠ forwardKey config p2 rh rp := by
      intro h
      exact hne (congrArg ForwardKey.localPort h)
    have hb21 : (forwardKey config p2 rh rp == forwardKey config p1 rh rp) = false :=
      beq_eq_false_iff_ne.mpr (Ne.symm hk12)
    have hl2 : (reg ++ [(forwardKey config p1 rh rp,
        (⟨config, p1, rh, rp⟩ : ForwardingInfo))]).lookup
        (forwardKey config p2 rh rp) = none := by
      rw [List.lookup_append, h2]
      simp [List.lookup, hb21]
    have e2 : setupPortForward
        (reg ++ [(forwardKey config p1 rh rp, (⟨config, p1, rh, rp⟩ : ForwardingInfo))])
        config 0 rh rp p2 =
        (⟨p2, "active"⟩,
         reg ++ [(forwardKey config p1 rh rp, (⟨config, p1, rh, rp⟩ : ForwardingInfo)),
                 (forwardKey config p2 rh rp, (⟨config, p2, rh, rp⟩ : ForwardingInfo))]) := by
      rw [setup_dynamic, setEntry_absent _ _ _ hl2]
      simp
    have hmem1 : (forwardKey config p1 rh rp, (⟨config, p1, rh, rp⟩ : ForwardingInfo)) ∈
        reg ++ [(forwardKey config p1 rh rp, (⟨config, p1, rh, rp⟩ : ForwardingInfo)),
                (forwardKey config p2 rh rp, (⟨config, p2, rh, rp⟩ : ForwardingInfo))] := by
      simp
    have hmem2 : (forwardKey config p2 rh rp, (⟨config, p2, rh, rp⟩ : ForwardingInfo)) ∈
        reg ++ [(forwardKey config p1 rh rp, (⟨config, p1, rh, rp⟩ : ForwardingInfo)),
                (forwardKey config p2 rh rp, (⟨config, p2, rh, rp⟩ : ForwardingInfo))] := by
      simp
    exact ⟨by rw [e1], by rw [e1, e2], by rw [e1, e2],
      List.mem_map_of_mem _ hmem1, List.mem_map_of_mem _ hmem2⟩

/-- C3 witness: a concrete registry exercising both the `already_active`
path and the two dynamic opens. -/
theorem c3_tunnel_idempotence_witness :
    setupPortForward
        [(forwardKey ⟨"h", some 22, "u"⟩ 8080 "db" 5432, ⟨⟨"h", some 22, "u"⟩, 8080, "db", 5432⟩)]
        ⟨"h", some 22, "u"⟩ 8080 "db" 5432 9999 =
      (⟨8080, "already_active"⟩,
       [(forwardKey ⟨"h", some 22, "u"⟩ 8080 "db" 5432, ⟨⟨"h", some 22, "u"⟩, 8080, "db", 5432⟩)]) ∧
    (setupPortForward (setupPortForward [] ⟨"h", some 22, "u"⟩ 0 "db" 5432 50001).2
        ⟨"h", some 22, "u"⟩ 0 "db" 5432 50002).1 = ⟨50002, "active"⟩ := by
  constructor
  · exact c3_tunnel_idempotence.1 _ ⟨"h", some 22, "u"⟩ 8080 "db" 5432 9999 (by decide) (by rfl)
  · exact (c3_tunnel_idempotence.2.2 [] ⟨"h", some 22, "u"⟩ "db" 5432 50001 50002
      (by decide) (by rfl) (by rfl)).2.1

/-- C9: closing a just-created tunnel with its registered key removes it
from the registry enumerated by `listPortForwards`, and closing an unknown
key is a no-op that resolves without error. -/
theorem c9_close_round_trip :
    (∀ (reg : ForwardReg) (config : SSHConfig) (localPort : Nat) (remoteHost : String)
        (remotePort osPort : Nat),
      (setupPortForward reg config localPort remoteHost remotePort osPort).1.status = "active" →
      (closePortForward (setupPortForward reg config localPort remoteHost remotePort osPort).2
          config (setupPortForward reg config localPort remoteHost remotePort osPort).1.localPort
          remoteHost remotePort).lookup
        (forwardKey config
          (setupPortForward reg config localPort remoteHost remotePort osPort).1.localPort
          remoteHost remotePort) = none ∧
      forwardKey config
          (setupPortForward reg config localPort remoteHost remotePort osPort).1.localPort
          remoteHost remotePort ∉
        (closePortForward (setupPortForward reg config localPort remoteHost remotePort osPort).2
          config (setupPortForward reg config localPort remoteHost remotePort osPort).1.localPort
          remoteHost remotePort).map Prod.fst) ∧
    (∀ (reg : ForwardReg) (config : SSHConfig) (localPort : Nat) (remoteHost : String)
        (remotePort : Nat),
      reg.lookup (forwardKey config localPort remoteHost remotePort) = none →
      closePortForward reg config localPort remoteHost remotePort = reg) := by
  constructor
  · intro reg config localPort remoteHost remotePort osPort hstatus
    by_cases hguard : localPort ≠ 0 ∧
        (reg.lookup (forwardKey config localPort remoteHost remotePort)).isSome
    · rw [setupPortForward, if_pos hguard] at hstatus
      have hbad : ("already_active" : String) = "active" := hstatus
      exact absurd hbad (by decide)
    · have hsetup : setupPortForward reg config localPort remoteHost remotePort osPort =
          (⟨if localPort = 0 then osPort else localPort, "active"⟩,
           setEntry reg
             (forwardKey config (if localPort = 0 then osPort else localPort) remoteHost remotePort)
             ⟨config, if localPort = 0 then osPort else localPort, remoteHost, remotePort⟩) := by
        rw [setupPortForward, if_neg hguard]
      rw [hsetup]
      have hs : ((setEntry reg
          (forwardKey config (if localPort = 0 then osPort else localPort) remoteHost remotePort)
          ⟨config, if localPort = 0 then osPort else localPort, remoteHost, remotePort⟩).lookup
            (forwardKey config (if localPort = 0 then osPort else localPort) remoteHost
              remotePort)).isSome := by
        rw [lookup_setEntry_self]; rfl
      constructor
      · show (closePortForward _ config _ remoteHost remotePort).lookup _ = none
        rw [closePortForward]
        simp only [if_pos hs]
        exact lookup_filter_ne _ _
      · show _ ∉ (closePortForward _ config _ remoteHost remotePort).map Prod.fst
        rw [closePortForward]
        simp only [if_pos hs]
        exact not_mem_map_fst_filter _ _
  · intro reg config localPort remoteHost remotePort hnone
    rw [closePortForward]
    simp [hnone]

/-- C9 witness: open then close a concrete tunnel, and close an unknown
key on the empty registry. -/
theorem c9_close_round_trip_witness :
    (closePortForward (setupPortForward [] ⟨"h", some 22, "u"⟩ 8080 "db" 5432 8080).2
        ⟨"h", some 22, "u"⟩
        (setupPortForward [] ⟨"h", some 22, "u"⟩ 8080 "db" 5432 8080).1.localPort
        "db" 5432).lookup
      (forwardKey ⟨"h", some 22, "u"⟩
        (setupPortForward [] ⟨"h", some 22, "u"⟩ 8080 "db" 5432 8080).1.localPort
        "db" 5432) = none ∧
    closePortForward [] ⟨"h", some 22, "u"⟩ 1234 "db" 5432 = [] := by
  constructor
  · exact (c9_close_round_trip.1 [] ⟨"h", some 22, "u"⟩ 8080 "db" 5432 8080 (by rfl)).1
  · exact c9_close_round_trip.2 [] ⟨"h", some 22, "u"⟩ 1234 "db" 5432 (by rfl)

end SSHMcp
